import Mathlib

/-!
Verification development for the builder_macro repository.

The repository is a compile-time code generator written as a family of
pattern-rewrite rules (Rust macro_rules). This file shallowly embeds:

* the field-classification rules of src/parse_struct.rs as an ordered list
  of pattern matchers over a small token alphabet, tried in the order the
  rules appear in the source, with fall-through on rule failure;
* the emission order of src/impl_struct_and_builder.rs and
  src/declare_structs.rs (the record and builder type field order);
* the constructor / setter / build generation of src/impl_builder.rs and
  src/declare_struct_and_builder.rs, with the runtime semantics of the
  generated new, setter and build operations over builder states modelled
  as lists of optional slots.

An assertion expression is modelled by its literal source text together
with a function telling, for a given vector of unwrapped field values,
whether its evaluation completes normally (true) or aborts abruptly
(false; this covers an assert! on a false condition as well as any other
abrupt termination inside the expression).
-/

set_option linter.unusedVariables false

/-- A token of the raw field body, as the macro pattern matcher sees it.
One constructor per token shape that the field rules of
src/parse_struct.rs distinguish: the pub keyword, a plain identifier, the
colon and equals separators, the literal None sentinel, the head Some( of
a default expression, the expression inside it, the closing parenthesis,
the comma, one meta item group, and a type fragment. -/
inductive Tok where
  | kwPub
  | ident (s : String)
  | colon
  | eq
  | noneTok
  | someOpen
  | exprTok (e : String)
  | closeParen
  | comma
  | metaTok (m : String)
  | tyTok (t : String)
deriving DecidableEq, Repr

/-- One classified field, as accumulated by parse_struct.rs: visibility
(vis: [] or vis: [ pub ]), the accumulated field meta items, the field
name, its type, and the recorded default: none models the literal None
sentinel (mandatory field), some e models Some(e) with e kept verbatim. -/
structure FieldEntry where
  vis : Bool
  meta : List String
  name : String
  ty : String
  dflt : Option String
deriving DecidableEq, Repr

/-- The two accumulators of parse_struct.rs: mandatory_fields and
optional_fields, each kept in the order the fields were classified. -/
structure Split where
  mand : List FieldEntry
  opt : List FieldEntry
deriving DecidableEq, Repr

/-- The Rust ident fragment matcher: it accepts a plain identifier and
also the pub keyword (this is exactly the ambiguity the source guards
against by rule ordering). -/
def matchIdent : Tok → Option String
  | .kwPub => some "pub"
  | .ident s => some s
  | _ => none

/-- Tags for the five field-classification rules of parse_struct.rs, in
the order they appear in the file: the meta-extraction rule (line 92),
the plain mandatory rule (line 161), the plain optional rule (line 231),
the public mandatory rule (line 301) and the public optional rule
(line 371). -/
inductive FieldRuleTag where
  | metaRule
  | plainMandatory
  | plainOptional
  | pubMandatory
  | pubOptional
deriving DecidableEq, Repr

/-- The order in which the field rules appear in src/parse_struct.rs.
macro_rules tries rules top to bottom, so this is the attempt order. -/
def fieldRuleOrder : List FieldRuleTag :=
  [.metaRule, .plainMandatory, .plainOptional, .pubMandatory, .pubOptional]

/-- Result of one successful rule application: the remaining raw tokens,
the new field_wip meta accumulator, and the updated split accumulators. -/
abbrev StepOut := List Tok × List String × Split

/-- parse_struct.rs line 92: move one leading meta item of the current
field into field_wip; the rule requires a nonempty tail after the meta
item (the + repetition in the pattern). -/
def tryMetaRule : List Tok → List String → Split → Option StepOut
  | .metaTok m :: t :: rest, wip, acc => some (t :: rest, wip ++ [m], acc)
  | _, _, _ => none

/-- parse_struct.rs line 161: plain mandatory field,
pattern F_NAME : F_TY = None followed by a comma; pushes the field onto
mandatory_fields with vis: [] and the accumulated meta, and resets
field_wip. The name position is an ident fragment, so it also accepts the
pub keyword. -/
def tryPlainMandatory : List Tok → List String → Split → Option StepOut
  | t :: .colon :: .tyTok ty :: .eq :: .noneTok :: .comma :: rest, wip, acc =>
    match matchIdent t with
    | some n => some (rest, [], { acc with mand := acc.mand ++ [⟨false, wip, n, ty, none⟩] })
    | none => none
  | _, _, _ => none

/-- parse_struct.rs line 231: plain optional field,
pattern F_NAME : F_TY = Some(F_DEFAULT) followed by a comma; pushes the
field onto optional_fields with vis: [] keeping the default expression
verbatim, and resets field_wip. -/
def tryPlainOptional : List Tok → List String → Split → Option StepOut
  | t :: .colon :: .tyTok ty :: .eq :: .someOpen :: .exprTok e :: .closeParen :: .comma :: rest,
      wip, acc =>
    match matchIdent t with
    | some n => some (rest, [], { acc with opt := acc.opt ++ [⟨false, wip, n, ty, some e⟩] })
    | none => none
  | _, _, _ => none

/-- parse_struct.rs line 301: public mandatory field,
pattern pub F_NAME : F_TY = None followed by a comma; pushes the field
onto mandatory_fields with vis: [ pub ]. -/
def tryPubMandatory : List Tok → List String → Split → Option StepOut
  | .kwPub :: t :: .colon :: .tyTok ty :: .eq :: .noneTok :: .comma :: rest, wip, acc =>
    match matchIdent t with
    | some n => some (rest, [], { acc with mand := acc.mand ++ [⟨true, wip, n, ty, none⟩] })
    | none => none
  | _, _, _ => none

/-- parse_struct.rs line 371: public optional field,
pattern pub F_NAME : F_TY = Some(F_DEFAULT) followed by a comma; pushes
the field onto optional_fields with vis: [ pub ]. -/
def tryPubOptional : List Tok → List String → Split → Option StepOut
  | .kwPub :: t :: .colon :: .tyTok ty :: .eq :: .someOpen :: .exprTok e :: .closeParen ::
      .comma :: rest, wip, acc =>
    match matchIdent t with
    | some n => some (rest, [], { acc with opt := acc.opt ++ [⟨true, wip, n, ty, some e⟩] })
    | none => none
  | _, _, _ => none

/-- Dispatch a rule tag to its matcher. -/
def applyFieldRule : FieldRuleTag → List Tok → List String → Split → Option StepOut
  | .metaRule => tryMetaRule
  | .plainMandatory => tryPlainMandatory
  | .plainOptional => tryPlainOptional
  | .pubMandatory => tryPubMandatory
  | .pubOptional => tryPubOptional

/-- One classification step: try the field rules in the order they appear
in src/parse_struct.rs, taking the first that matches (a rule that fails
to match has no effect and the next one is tried). -/
def classifyStep (toks : List Tok) (wip : List String) (acc : Split) : Option StepOut :=
  fieldRuleOrder.findSome? (fun r => applyFieldRule r toks wip acc)

/-- The classification loop of parse_struct.rs: apply rules until no rule
matches; the terminal rule (line 441) requires both the raw tail and
field_wip to be empty, and yields the accumulated split; any other stuck
state is a syntax rejection (modelled as none). Every rule consumes at
least one token, so fuel equal to the token count suffices. -/
def classifyAux : Nat → List Tok → List String → Split → Option Split
  | 0, _, _, _ => none
  | fuel + 1, toks, wip, acc =>
    match classifyStep toks wip acc with
    | some (toks', wip', acc') => classifyAux fuel toks' wip' acc'
    | none =>
      match toks, wip with
      | [], [] => some acc
      | _, _ => none

/-- Classify a raw field body: run the rule loop from an empty field_wip
and empty accumulators. -/
def classifyFields (toks : List Tok) : Option Split :=
  classifyAux (toks.length + 1) toks [] ⟨[], []⟩

/-- Token rendering of one raw field entry as the user writes it: meta
items, optional pub, name, colon, type, the default (= None or
= Some(expr)), and the terminating comma. -/
def renderDflt : Option String → List Tok
  | none => [.eq, .noneTok]
  | some e => [.eq, .someOpen, .exprTok e, .closeParen]

/-- The tokens of one field entry after its meta items: optional pub,
name, colon, type, default, terminating comma. -/
def coreField (f : FieldEntry) : List Tok :=
  (if f.vis then [Tok.kwPub] else [])
    ++ [Tok.ident f.name, Tok.colon, Tok.tyTok f.ty]
    ++ renderDflt f.dflt ++ [Tok.comma]

/-- Render one field entry to raw tokens (with its terminating comma). -/
def renderField (f : FieldEntry) : List Tok :=
  (f.meta.map Tok.metaTok) ++ coreField f

/-- Render an ordered field list to a raw field body. -/
def renderFields (fs : List FieldEntry) : List Tok :=
  (fs.map renderField).flatten

/-- Where classification puts one declared field: a field whose default
is the None sentinel goes to mandatory_fields, any other default goes to
optional_fields (both appended at the end, preserving relative order). -/
def pushEntry (acc : Split) (f : FieldEntry) : Split :=
  if f.dflt.isNone then { acc with mand := acc.mand ++ [f] }
  else { acc with opt := acc.opt ++ [f] }

/-- The split a spec should classify to: fold of pushEntry. -/
def splitOf (fs : List FieldEntry) : Split :=
  fs.foldl pushEntry ⟨[], []⟩

/-- Field order of the emitted record and builder types:
src/impl_struct_and_builder.rs (lines 46 to 61) passes the classified
fields to declare_structs! as the mandatory_fields block followed by the
optional_fields block, and src/declare_structs.rs emits the struct and
the builder fields in exactly the order received. -/
def emittedFields (s : Split) : List FieldEntry :=
  s.mand ++ s.opt

/-- Names of the emitted record fields, in emission order. -/
def emittedFieldNames (s : Split) : List String :=
  (emittedFields s).map (·.name)

/-- Names of the declared fields, in declaration order. -/
def declaredFieldNames (fs : List FieldEntry) : List String :=
  fs.map (·.name)

/-! ## Header rules of parse_struct.rs (lines 39 to 88)

The header of a specification is
[pub] BuilderName MODE StructName { fieldBody } [, assertions: { ... }].
The pub rule (line 39) appears in the source before the plain rule
(line 67): the comment at lines 61 to 66 records that this ordering is
deliberate, because the BUILDER position is an ident fragment and would
otherwise match the pub keyword itself. -/

/-- A token of the specification header. The MODE position of the source
pattern is a tt fragment, so it matches any single token; the brace
delimited field body and the optional trailing assertions block each
arrive as one token group. -/
inductive HTok where
  | kwPub
  | ident (s : String)
  | arrow
  | fatArrow
  | braces (body : List Tok)
  | assertionsBlock (preds : List String)

/-- The ident fragment matcher at header positions: also accepts pub. -/
def matchHIdent : HTok → Option String
  | .kwPub => some "pub"
  | .ident s => some s
  | _ => none

/-- The parsed header: visibility, builder name, mode token, struct name,
raw field body and the assertion texts. -/
structure Header where
  vis : Bool
  builder : String
  mode : HTok
  structName : String
  body : List Tok
  asserts : List String

/-- Tags for the two header rules, in source order. -/
inductive HeaderRuleTag where
  | pubHeader
  | plainHeader
deriving DecidableEq, Repr

/-- The order in which the header rules appear in src/parse_struct.rs:
the pub rule (line 39) before the plain rule (line 67). -/
def headerRuleOrder : List HeaderRuleTag := [.pubHeader, .plainHeader]

/-- parse_struct.rs line 39: pub BUILDER MODE STRUCT { body } with an
optional trailing assertions block; vis: [ pub ]. -/
def tryPubHeader : List HTok → Option Header
  | [.kwPub, b, m, s, .braces body] =>
    match matchHIdent b, matchHIdent s with
    | some bn, some sn => some ⟨true, bn, m, sn, body, []⟩
    | _, _ => none
  | [.kwPub, b, m, s, .braces body, .assertionsBlock preds] =>
    match matchHIdent b, matchHIdent s with
    | some bn, some sn => some ⟨true, bn, m, sn, body, preds⟩
    | _, _ => none
  | _ => none

/-- parse_struct.rs line 67: BUILDER MODE STRUCT { body } with an
optional trailing assertions block; vis: []. -/
def tryPlainHeader : List HTok → Option Header
  | [b, m, s, .braces body] =>
    match matchHIdent b, matchHIdent s with
    | some bn, some sn => some ⟨false, bn, m, sn, body, []⟩
    | _, _ => none
  | [b, m, s, .braces body, .assertionsBlock preds] =>
    match matchHIdent b, matchHIdent s with
    | some bn, some sn => some ⟨false, bn, m, sn, body, preds⟩
    | _, _ => none
  | _ => none

/-- Dispatch a header rule tag to its matcher. -/
def applyHeaderRule : HeaderRuleTag → List HTok → Option Header
  | .pubHeader => tryPubHeader
  | .plainHeader => tryPlainHeader

/-- Parse the header by trying the two rules in source order. -/
def parseHeader (toks : List HTok) : Option Header :=
  headerRuleOrder.findSome? (fun r => applyHeaderRule r toks)

/-! ## Runtime semantics of the generated builder operations

Two generations of the builder synthesizer coexist in the source:

* src/declare_struct_and_builder.rs (no mandatory/optional split): the
  builder stores one optional slot per field; new() takes no parameters
  and assigns each slot its recorded default expression (the Option value
  written in the spec: None for a mandatory field, Some v for a defaulted
  one); every field receives a setter; build() unwraps each slot with
  ok_or, naming the field in the failure message, and converts a caught
  assertion abort into an Err carrying the literal predicate text.

* src/impl_builder.rs (mandatory/optional split): new() takes one
  parameter per req: true field and stores it wrapped as present, while
  each req: false slot is initialized to Some(default); only req: false
  fields receive setters; build() unwraps with unwrap (an abort when a
  slot is absent); purpose data catches assertion aborts into Err,
  purpose object lets them abort and returns the struct directly.

Field values are modelled over an arbitrary type; the record assembled by
build is the list of (field name, value) pairs in field order. -/

/-- Outcome of a build() call, separating the recoverable error value
(the Err of a Result, purpose data) from an unrecoverable abort (a Rust
panic, purpose object or a failed unwrap). -/
inductive BuildOutcome (ρ : Type) where
  | ok (r : ρ)
  | err (msg : String)
  | panicked (msg : String)
deriving DecidableEq, Repr

/-- The single quote character, used inside the generated messages. -/
def squote : String := ⟨[Char.ofNat 39]⟩

/-- declare_struct_and_builder.rs lines 54 to 55: the message of the
ok_or when a slot is absent, naming the field. -/
def missingFieldMsg (n : String) : String :=
  "Must pass argument for field: " ++ squote ++ n ++ squote

/-- The Err message produced when a caught assertion aborts: the literal
predicate text (stringify! of the assertion) inside single quotes
(declare_struct_and_builder.rs line 62, impl_builder.rs line 188). -/
def assertFailMsg (t : String) : String :=
  "assertion failed: " ++ squote ++ t ++ squote

/-- The abort message of unwrap on an absent Option slot (the payload is
host-formatted; its exact text is not constrained by the spec). -/
def optionUnwrapPanicMsg : String :=
  "called Option::unwrap() on a None value"

/-- One declared assertion: its literal source text and, for each vector
of unwrapped field values in declaration order, whether evaluating the
expression completes normally (true) or aborts abruptly (false). -/
structure Assertion (α : Type) where
  text : String
  ok : List α → Bool

/-- A field of the no-split variant (declare_struct_and_builder.rs): the
recorded default expression is itself an Option value (None for a
mandatory field, Some v for a defaulted one) and is assigned to the slot
verbatim by new(). -/
structure DField (α : Type) where
  name : String
  init : Option α
deriving DecidableEq, Repr

/-- declare_struct_and_builder.rs lines 41 to 47: new() assigns each slot
its recorded default expression. -/
def newDSB {α : Type} (fields : List (DField α)) : List (Option α) :=
  fields.map (·.init)

/-- declare_struct_and_builder.rs lines 75 to 78: the non-consuming
setter body, self.f = Some(value); the builder state afterwards. Every
field of the no-split variant has such a setter. -/
def setSlotDSB {α : Type} (slots : List (Option α)) (i : Nat) (v : α) : List (Option α) :=
  slots.set i (some v)

/-- declare_struct_and_builder.rs lines 52 to 56: unwrap each slot in
field order with ok_or, short-circuiting at the first absent slot with
the message naming that field. -/
def unwrapDSB {α : Type} : List (DField α) → List (Option α) → Except String (List α)
  | [], _ => .ok []
  | f :: _, [] => .error (missingFieldMsg f.name)
  | f :: _, none :: _ => .error (missingFieldMsg f.name)
  | _ :: fs, some v :: ss => (unwrapDSB fs ss).map (fun vs => v :: vs)

/-- The first assertion, in declaration order, whose evaluation aborts. -/
def firstFailing {α : Type} (asserts : List (Assertion α)) (vals : List α) :
    Option (Assertion α) :=
  asserts.find? (fun a => !(a.ok vals))

/-- declare_struct_and_builder.rs lines 52 to 69: build() of the no-split
variant (purpose data): unwrap every slot with ok_or, evaluate each
assertion inside catch_unwind converting an abort into Err with the
literal predicate text, then assemble the record. -/
def buildDSB {α : Type} (fields : List (DField α)) (slots : List (Option α))
    (asserts : List (Assertion α)) : BuildOutcome (List (String × α)) :=
  match unwrapDSB fields slots with
  | .error m => .err m
  | .ok vals =>
    match firstFailing asserts vals with
    | some a => .err (assertFailMsg a.text)
    | none => .ok ((fields.map (·.name)).zip vals)

/-- A field of the split variant (impl_builder.rs): the req flag marks a
mandatory field; dflt is the value of the recorded default expression
(meaningful when req is false). -/
structure RField (α : Type) where
  name : String
  req : Bool
  dflt : α
deriving DecidableEq, Repr

/-- impl_builder.rs lines 32 to 104 (@constructor): new() walks the field
list in order; a req: true field consumes the next constructor argument
and is stored wrapped as present, a req: false slot is initialized to
Some(default). The empty-argument fallback cannot occur when the arity
matches (Rust enforces the arity at the call site). -/
def newImpl {α : Type} : List (RField α) → List α → List (Option α)
  | [], _ => []
  | f :: fs, args =>
    if f.req then
      match args with
      | a :: rest => some a :: newImpl fs rest
      | [] => none :: newImpl fs []
    else
      some f.dflt :: newImpl fs args

/-- impl_builder.rs lines 107 to 121: the non-consuming setter body,
self.f = Some(value), returning the same builder; generated only for
req: false fields. -/
def setSlotImplNC {α : Type} (slots : List (Option α)) (i : Nat) (v : α) : List (Option α) :=
  slots.set i (some v)

/-- impl_builder.rs lines 122 to 136: the consuming setter body, the same
slot update on the owned builder value. -/
def setSlotImplC {α : Type} (slots : List (Option α)) (i : Nat) (v : α) : List (Option α) :=
  slots.set i (some v)

/-- impl_builder.rs lines 182, 244, 305, 370: unwrap each slot in field
order; an absent slot is an abort (Option::unwrap panic). -/
def unwrapImpl {α : Type} : List (Option α) → Except String (List α)
  | [] => .ok []
  | none :: _ => .error optionUnwrapPanicMsg
  | some v :: ss => (unwrapImpl ss).map (fun vs => v :: vs)

/-- impl_builder.rs lines 181 to 195 (purpose data): unwrap every slot
(abort if absent), evaluate each assertion inside catch_unwind converting
the first abort into Err with the literal predicate text, then assemble
and return Ok(record). -/
def buildImplData {α : Type} (fields : List (RField α)) (slots : List (Option α))
    (asserts : List (Assertion α)) : BuildOutcome (List (String × α)) :=
  match unwrapImpl slots with
  | .error m => .panicked m
  | .ok vals =>
    match firstFailing asserts vals with
    | some a => .err (assertFailMsg a.text)
    | none => .ok ((fields.map (·.name)).zip vals)

/-- impl_builder.rs lines 243 to 251 (purpose object): unwrap every slot
(abort if absent), run each assertion bare (the first aborting assertion
aborts the whole build; nothing is caught), then return the record
directly, with no Result wrapper. -/
def buildImplObject {α : Type} (fields : List (RField α)) (slots : List (Option α))
    (asserts : List (Assertion α)) : BuildOutcome (List (String × α)) :=
  match unwrapImpl slots with
  | .error m => .panicked m
  | .ok vals =>
    match firstFailing asserts vals with
    | some a => .panicked (assertFailMsg a.text)
    | none => .ok ((fields.map (·.name)).zip vals)

/-! ## Syntactic shape of the generated constructor and setters -/

/-- A field as impl_builder.rs receives it: req flag, the default
expression text, name and type. -/
structure SField where
  name : String
  ty : String
  req : Bool
  dflt : String
deriving DecidableEq, Repr

/-- Wrap an expression text as present, Some(e). -/
def someWrap (e : String) : String :=
  "Some(" ++ e ++ ")"

/-- impl_builder.rs lines 32 to 104: the @constructor recursion threads a
params accumulator and an assignments accumulator over the field list in
order; a req: true field appends a constructor parameter and the
assignment f: Some(f); a req: false field appends no parameter and the
assignment f: Some(default). -/
def ctorGenAux (params : List String) (assigns : List (String × String)) :
    List SField → List String × List (String × String)
  | [] => (params, assigns)
  | f :: fs =>
    if f.req then
      ctorGenAux (params ++ [f.name]) (assigns ++ [(f.name, someWrap f.name)]) fs
    else
      ctorGenAux params (assigns ++ [(f.name, someWrap f.dflt)]) fs

/-- The generated new(): constructor parameter names and field
assignments, from empty accumulators. -/
def ctorGen (fields : List SField) : List String × List (String × String) :=
  ctorGenAux [] [] fields

/-- The receiver mode of a generated setter: non-consuming setters take
the builder by mutable reference and return that same reference,
consuming setters take the builder by value and return a new owned
builder value. -/
inductive Receiver where
  | byMutRef
  | byValue
deriving DecidableEq, Repr

/-- The two builder variants selected by the mode marker. -/
inductive Variant where
  | nonConsuming
  | consuming
deriving DecidableEq, Repr

/-- A generated setter: the field name it sets and its receiver mode. -/
structure SetterDecl where
  name : String
  receiver : Receiver
deriving DecidableEq, Repr

/-- impl_builder.rs lines 106 to 143 (@setter): a req: true field expands
to nothing; a req: false field receives one setter, taking and returning
a mutable reference in the non-consuming variant (line 117) and taking
and returning the builder by value in the consuming variant (line 132). -/
def setterImpl (v : Variant) (f : SField) : Option SetterDecl :=
  if f.req then none
  else
    some ⟨f.name, match v with
                  | .nonConsuming => .byMutRef
                  | .consuming => .byValue⟩

/-- declare_struct_and_builder.rs lines 71 to 79 (non-consuming, line 75)
and lines 152 to 160 (consuming, line 156): in the no-split variant every
field receives a setter. -/
def setterDSB (v : Variant) (f : DField Nat) : SetterDecl :=
  ⟨f.name, match v with
           | .nonConsuming => .byMutRef
           | .consuming => .byValue⟩

/-! ## Lemmas about the classification loop -/

theorem tryMetaRule_length {toks : List Tok} {wip : List String} {acc : Split} {out : StepOut}
    (h : tryMetaRule toks wip acc = some out) : out.1.length < toks.length := by
  unfold tryMetaRule at h
  split at h
  · injection h with h
    subst h
    simp
  · exact absurd h (by simp)

theorem tryPlainMandatory_length {toks : List Tok} {wip : List String} {acc : Split}
    {out : StepOut} (h : tryPlainMandatory toks wip acc = some out) :
    out.1.length < toks.length := by
  unfold tryPlainMandatory at h
  split at h
  · split at h
    · injection h with h
      subst h
      simp
      try omega
    · exact absurd h (by simp)
  · exact absurd h (by simp)

theorem tryPlainOptional_length {toks : List Tok} {wip : List String} {acc : Split}
    {out : StepOut} (h : tryPlainOptional toks wip acc = some out) :
    out.1.length < toks.length := by
  unfold tryPlainOptional at h
  split at h
  · split at h
    · injection h with h
      subst h
      simp
      try omega
    · exact absurd h (by simp)
  · exact absurd h (by simp)

theorem tryPubMandatory_length {toks : List Tok} {wip : List String} {acc : Split}
    {out : StepOut} (h : tryPubMandatory toks wip acc = some out) :
    out.1.length < toks.length := by
  unfold tryPubMandatory at h
  split at h
  · split at h
    · injection h with h
      subst h
      simp
      try omega
    · exact absurd h (by simp)
  · exact absurd h (by simp)

theorem tryPubOptional_length {toks : List Tok} {wip : List String} {acc : Split}
    {out : StepOut} (h : tryPubOptional toks wip acc = some out) :
    out.1.length < toks.length := by
  unfold tryPubOptional at h
  split at h
  · split at h
    · injection h with h
      subst h
      simp
      try omega
    · exact absurd h (by simp)
  · exact absurd h (by simp)

/-- Every successful classification step consumes at least one token. -/
theorem classifyStep_length {toks : List Tok} {wip : List String} {acc : Split} {out : StepOut}
    (h : classifyStep toks wip acc = some out) : out.1.length < toks.length := by
  unfold classifyStep fieldRuleOrder at h
  simp only [List.findSome?_cons, List.findSome?_nil, applyFieldRule] at h
  cases h1 : tryMetaRule toks wip acc with
  | some o => rw [h1] at h; injection h with h; subst h; exact tryMetaRule_length h1
  | none =>
  rw [h1] at h
  cases h2 : tryPlainMandatory toks wip acc with
  | some o => rw [h2] at h; injection h with h; subst h; exact tryPlainMandatory_length h2
  | none =>
  rw [h2] at h
  cases h3 : tryPlainOptional toks wip acc with
  | some o => rw [h3] at h; injection h with h; subst h; exact tryPlainOptional_length h3
  | none =>
  rw [h3] at h
  cases h4 : tryPubMandatory toks wip acc with
  | some o => rw [h4] at h; injection h with h; subst h; exact tryPubMandatory_length h4
  | none =>
  rw [h4] at h
  cases h5 : tryPubOptional toks wip acc with
  | some o => rw [h5] at h; injection h with h; subst h; exact tryPubOptional_length h5
  | none => rw [h5] at h; exact absurd h (by simp)

/-- The classification loop does not depend on the fuel, as long as the
fuel exceeds the token count. -/
theorem classifyAux_congr : ∀ (fuel fuel' : Nat) (toks : List Tok) (wip : List String)
    (acc : Split), toks.length < fuel → toks.length < fuel' →
    classifyAux fuel toks wip acc = classifyAux fuel' toks wip acc := by
  intro fuel
  induction fuel with
  | zero => intro fuel' toks wip acc h h'; omega
  | succ n ih =>
    intro fuel' toks wip acc h h'
    cases fuel' with
    | zero => omega
    | succ m =>
      simp only [classifyAux]
      cases hs : classifyStep toks wip acc with
      | none => rfl
      | some out =>
        obtain ⟨t', w', a'⟩ := out
        have hl := classifyStep_length hs
        exact ih m t' w' a' (by simp at hl ⊢; omega) (by simp at hl ⊢; omega)

/-- Run the classification loop with sufficient fuel. -/
def classifyRun (toks : List Tok) (wip : List String) (acc : Split) : Option Split :=
  classifyAux (toks.length + 1) toks wip acc

theorem classifyFields_eq_run (toks : List Tok) :
    classifyFields toks = classifyRun toks [] ⟨[], []⟩ := rfl

theorem classifyRun_step {toks : List Tok} {wip : List String} {acc : Split} {out : StepOut}
    (h : classifyStep toks wip acc = some out) :
    classifyRun toks wip acc = classifyRun out.1 out.2.1 out.2.2 := by
  obtain ⟨t', w', a'⟩ := out
  have hl := classifyStep_length h
  unfold classifyRun
  simp only [classifyAux]
  rw [h]
  exact classifyAux_congr toks.length (t'.length + 1) t' w' a' (by simp at hl ⊢; omega)
    (by omega)

theorem classifyRun_done (acc : Split) : classifyRun [] [] acc = some acc := rfl

theorem classifyRun_stuck {toks : List Tok} {wip : List String} {acc : Split}
    (h : classifyStep toks wip acc = none) (hne : toks ≠ []) :
    classifyRun toks wip acc = none := by
  unfold classifyRun
  simp only [classifyAux]
  rw [h]
  cases toks with
  | nil => exact absurd rfl hne
  | cons t ts => rfl

/-- One classification step consumes exactly one well-formed field core
(after the meta items), pushing the field built from the current
field_wip meta accumulator and resetting it. -/
theorem classifyStep_core (vis : Bool) (n ty : String) (d : Option String) (rest : List Tok)
    (wip : List String) (acc : Split) :
    classifyStep (coreField ⟨vis, [], n, ty, d⟩ ++ rest) wip acc
      = some (rest, [], pushEntry acc ⟨vis, wip, n, ty, d⟩) := by
  cases vis <;> cases d <;> rfl

/-- Leading meta items of a field are moved one at a time into the
field_wip accumulator (the meta rule needs a nonempty tail, which holds
whenever the field core follows). -/
theorem classifyRun_metas : ∀ (ms : List String) (toks : List Tok) (wip : List String)
    (acc : Split), toks ≠ [] →
    classifyRun (ms.map Tok.metaTok ++ toks) wip acc = classifyRun toks (wip ++ ms) acc := by
  intro ms
  induction ms with
  | nil => intro toks wip acc h; simp
  | cons m ms ih =>
    intro toks wip acc h
    have htail : ms.map Tok.metaTok ++ toks ≠ [] := by
      intro hc
      rcases List.append_eq_nil.mp hc with ⟨_, h2⟩
      exact h h2
    have hstep : classifyStep (Tok.metaTok m :: (ms.map Tok.metaTok ++ toks)) wip acc
        = some (ms.map Tok.metaTok ++ toks, wip ++ [m], acc) := by
      cases hms : ms.map Tok.metaTok ++ toks with
      | nil => exact absurd hms htail
      | cons t ts => rfl
    calc classifyRun (List.map Tok.metaTok (m :: ms) ++ toks) wip acc
        = classifyRun (ms.map Tok.metaTok ++ toks) (wip ++ [m]) acc := by
          rw [List.map_cons, List.cons_append, classifyRun_step hstep]
      _ = classifyRun toks ((wip ++ [m]) ++ ms) acc := ih toks (wip ++ [m]) acc h
      _ = classifyRun toks (wip ++ (m :: ms)) acc := by rw [List.append_assoc]; rfl

/-- The field core is never the empty token list. -/
theorem coreField_ne_nil (f : FieldEntry) : coreField f ≠ [] := by
  obtain ⟨vis, ms, n, ty, d⟩ := f
  cases vis <;> cases d <;> simp [coreField, renderDflt]

/-- A rendered field is never the empty token list. -/
theorem renderField_ne_nil (f : FieldEntry) : renderField f ≠ [] := by
  unfold renderField
  intro hc
  rcases List.append_eq_nil.mp hc with ⟨_, h2⟩
  exact coreField_ne_nil f h2

/-- The classification loop consumes one rendered field (meta items, then
the core) and pushes it onto the matching accumulator. -/
theorem classifyRun_field (f : FieldEntry) (rest : List Tok) (acc : Split) :
    classifyRun (renderField f ++ rest) [] acc = classifyRun rest [] (pushEntry acc f) := by
  obtain ⟨vis, ms, n, ty, d⟩ := f
  have hcore : coreField ⟨vis, ms, n, ty, d⟩ = coreField ⟨vis, [], n, ty, d⟩ := rfl
  calc classifyRun (renderField ⟨vis, ms, n, ty, d⟩ ++ rest) [] acc
      = classifyRun (ms.map Tok.metaTok ++ (coreField ⟨vis, [], n, ty, d⟩ ++ rest)) [] acc := by
        rw [renderField, hcore, List.append_assoc]
    _ = classifyRun (coreField ⟨vis, [], n, ty, d⟩ ++ rest) ([] ++ ms) acc := by
        refine classifyRun_metas ms _ [] acc ?_
        intro hc
        rcases List.append_eq_nil.mp hc with ⟨h1, _⟩
        exact coreField_ne_nil _ h1
    _ = classifyRun rest [] (pushEntry acc ⟨vis, ms, n, ty, d⟩) := by
        rw [List.nil_append, classifyRun_step (classifyStep_core vis n ty d rest ms acc)]

/-- Classification of a whole rendered field body folds pushEntry over
the declared fields. -/
theorem classifyRun_fields : ∀ (fs : List FieldEntry) (acc : Split),
    classifyRun (renderFields fs) [] acc = some (fs.foldl pushEntry acc) := by
  intro fs
  induction fs with
  | nil => intro acc; rfl
  | cons f fs ih =>
    intro acc
    have : renderFields (f :: fs) = renderField f ++ renderFields fs := by
      simp [renderFields]
    rw [this, classifyRun_field, ih]
    rfl

/-- Classification of a rendered spec yields exactly the order-preserving
mandatory/optional split of the declared fields. -/
theorem classifyFields_render (fs : List FieldEntry) :
    classifyFields (renderFields fs) = some (splitOf fs) := by
  rw [classifyFields_eq_run, classifyRun_fields]
  rfl

/-- The split accumulators receive the mandatory (None default) and
defaulted (Some default) fields respectively, each in declaration
order. -/
theorem splitOf_spec : ∀ (fs : List FieldEntry) (m o : List FieldEntry),
    fs.foldl pushEntry ⟨m, o⟩
      = ⟨m ++ fs.filter (fun f => f.dflt.isNone), o ++ fs.filter (fun f => !f.dflt.isNone)⟩ := by
  intro fs
  induction fs with
  | nil => intro m o; simp
  | cons f fs ih =>
    intro m o
    by_cases hd : f.dflt.isNone = true
    · have hp : pushEntry ⟨m, o⟩ f = ⟨m ++ [f], o⟩ := by simp [pushEntry, hd]
      simp [List.foldl_cons, hp, ih, List.filter_cons, hd]
    · have hp : pushEntry ⟨m, o⟩ f = ⟨m, o ++ [f]⟩ := by simp [pushEntry, hd]
      have hs : f.dflt.isSome = true := by
        cases hds : f.dflt <;> simp_all
      simp [List.foldl_cons, hp, ih, List.filter_cons, hd, hs]

/-! ## Rejection when the terminating comma of the last field is absent -/

/-- With the terminating comma removed from a field core, no field rule
matches: every field rule of parse_struct.rs requires the comma in its
pattern. -/
theorem classifyStep_core_noComma (vis : Bool) (n ty : String) (d : Option String)
    (wip : List String) (acc : Split) :
    classifyStep ((coreField ⟨vis, [], n, ty, d⟩).dropLast) wip acc = none := by
  cases vis <;> cases d <;> rfl

/-- A rendered field with its final comma removed is rejected: the meta
items are consumed, then the loop is stuck on the comma-less core. -/
theorem classifyRun_field_noComma (f : FieldEntry) (acc : Split) :
    classifyRun ((renderField f).dropLast) [] acc = none := by
  obtain ⟨vis, ms, n, ty, d⟩ := f
  have hcore : coreField ⟨vis, ms, n, ty, d⟩ = coreField ⟨vis, [], n, ty, d⟩ := rfl
  have hne : (coreField ⟨vis, [], n, ty, d⟩).dropLast ≠ [] := by
    cases vis <;> cases d <;> simp [coreField, renderDflt]
  have hdrop : (renderField ⟨vis, ms, n, ty, d⟩).dropLast
      = ms.map Tok.metaTok ++ (coreField ⟨vis, [], n, ty, d⟩).dropLast := by
    rw [renderField, hcore]
    exact List.dropLast_append_of_ne_nil _ (coreField_ne_nil _)
  rw [hdrop, classifyRun_metas ms _ [] acc hne]
  exact classifyRun_stuck (classifyStep_core_noComma vis n ty d ([] ++ ms) acc) hne

/-- A nonempty rendered field list is a nonempty token list. -/
theorem renderFields_ne_nil {fs : List FieldEntry} (h : fs ≠ []) : renderFields fs ≠ [] := by
  cases fs with
  | nil => exact absurd rfl h
  | cons f fs =>
    have : renderFields (f :: fs) = renderField f ++ renderFields fs := by simp [renderFields]
    rw [this]
    intro hc
    rcases List.append_eq_nil.mp hc with ⟨h1, _⟩
    exact renderField_ne_nil f h1

/-- Dropping the final comma of a nonempty rendered spec makes the whole
classification reject, whatever was already accumulated. -/
theorem classifyRun_dropLast : ∀ (fs : List FieldEntry) (acc : Split), fs ≠ [] →
    classifyRun ((renderFields fs).dropLast) [] acc = none := by
  intro fs
  induction fs with
  | nil => intro acc h; exact absurd rfl h
  | cons f fs ih =>
    intro acc h
    cases fs with
    | nil =>
      have : renderFields [f] = renderField f := by simp [renderFields]
      rw [this, classifyRun_field_noComma]
    | cons g gs =>
      have hsplit : renderFields (f :: g :: gs) = renderField f ++ renderFields (g :: gs) := by
        simp [renderFields]
      have hne : renderFields (g :: gs) ≠ [] := renderFields_ne_nil (by simp)
      rw [hsplit, List.dropLast_append_of_ne_nil _ hne, classifyRun_field]
      exact ih (pushEntry acc f) (by simp)

/-- Same statement through the top-level entry point. -/
theorem classifyFields_dropLast {fs : List FieldEntry} (h : fs ≠ []) :
    classifyFields ((renderFields fs).dropLast) = none := by
  rw [classifyFields_eq_run]
  exact classifyRun_dropLast fs ⟨[], []⟩ h

/-! ## Lemmas about the generated runtime operations -/

/-- The values of a fully supplied slot list. -/
theorem unwrapDSB_ok {α : Type} : ∀ (fields : List (DField α)) (slots : List (Option α)),
    slots.length = fields.length → (∀ o ∈ slots, o.isSome) →
    unwrapDSB fields slots = .ok slots.reduceOption := by
  intro fields
  induction fields with
  | nil =>
    intro slots hlen hall
    cases slots with
    | nil => rfl
    | cons o os => simp at hlen
  | cons f fs ih =>
    intro slots hlen hall
    cases slots with
    | nil => simp at hlen
    | cons o os =>
      cases o with
      | none => exact absurd (hall none (by simp)) (by simp)
      | some v =>
        simp only [unwrapDSB, List.reduceOption_cons_of_some]
        rw [ih os (by simpa using hlen) (fun o ho => hall o (by simp [ho]))]
        rfl

/-- With an absent slot, unwrapping errors out naming a field whose slot
is absent (the first one, scanning in field order). -/
theorem unwrapDSB_err {α : Type} : ∀ (fields : List (DField α)) (slots : List (Option α)),
    slots.length = fields.length → none ∈ slots →
    ∃ (k : Nat) (f : DField α), fields[k]? = some f ∧ slots[k]? = some none
      ∧ unwrapDSB fields slots = .error (missingFieldMsg f.name) := by
  intro fields
  induction fields with
  | nil =>
    intro slots hlen hmem
    cases slots with
    | nil => simp at hmem
    | cons o os => simp at hlen
  | cons f fs ih =>
    intro slots hlen hmem
    cases slots with
    | nil => simp at hlen
    | cons o os =>
      cases o with
      | none => exact ⟨0, f, List.getElem?_cons_zero, List.getElem?_cons_zero, rfl⟩
      | some v =>
        have hmem' : none ∈ os := by
          rcases List.mem_cons.mp hmem with h | h
          · exact absurd h.symm (by simp)
          · exact h
        obtain ⟨k, g, h1, h2, h3⟩ := ih os (by simpa using hlen) hmem'
        refine ⟨k + 1, g, ?_, ?_, ?_⟩
        · simpa using h1
        · simpa using h2
        · simp only [unwrapDSB, h3]
          rfl

/-- Unwrap of the split variant: all slots present yields the values. -/
theorem unwrapImpl_ok {α : Type} : ∀ (slots : List (Option α)), (∀ o ∈ slots, o.isSome) →
    unwrapImpl slots = .ok slots.reduceOption := by
  intro slots
  induction slots with
  | nil => intro _; rfl
  | cons o os ih =>
    intro hall
    cases o with
    | none => exact absurd (hall none (by simp)) (by simp)
    | some v =>
      simp only [unwrapImpl, List.reduceOption_cons_of_some]
      rw [ih (fun o ho => hall o (by simp [ho]))]
      rfl

/-- Unwrap of the split variant: an absent slot is an abort. -/
theorem unwrapImpl_err {α : Type} : ∀ (slots : List (Option α)), none ∈ slots →
    unwrapImpl slots = .error optionUnwrapPanicMsg := by
  intro slots
  induction slots with
  | nil => intro h; simp at h
  | cons o os ih =>
    intro hmem
    cases o with
    | none => rfl
    | some v =>
      have hmem' : none ∈ os := by
        rcases List.mem_cons.mp hmem with h | h
        · exact absurd h.symm (by simp)
        · exact h
      simp only [unwrapImpl, ih hmem']
      rfl

/-- find? returns the entry at the first index satisfying the predicate,
when every earlier entry fails it. -/
theorem find?_at_first {β : Type} (p : β → Bool) : ∀ (l : List β) (j : Nat) (hj : j < l.length),
    p (l.get ⟨j, hj⟩) = true →
    (∀ k (hk : k < j), p (l.get ⟨k, Nat.lt_trans hk hj⟩) = false) →
    l.find? p = some (l.get ⟨j, hj⟩) := by
  intro l
  induction l with
  | nil => intro j hj; simp at hj
  | cons a as ih =>
    intro j hj hpj hbefore
    cases j with
    | zero => simp only [List.get] at hpj; simp [List.find?, hpj]
    | succ j' =>
      have ha : p a = false := hbefore 0 (Nat.succ_pos j')
      simp only [List.find?, ha]
      exact ih j' (Nat.lt_of_succ_lt_succ hj) hpj
        (fun k hk => hbefore (k + 1) (Nat.succ_lt_succ hk))

/-- Number of mandatory fields (constructor arity) of the split variant. -/
def reqCount {α : Type} (fields : List (RField α)) : Nat :=
  (fields.filter (·.req)).length

/-- The builder produced by new() has one slot per field. -/
theorem newImpl_length {α : Type} : ∀ (fields : List (RField α)) (args : List α),
    (newImpl fields args).length = fields.length := by
  intro fields
  induction fields with
  | nil => intro args; rfl
  | cons f fs ih =>
    intro args
    by_cases hr : f.req
    · cases args with
      | nil => simp [newImpl, hr, ih]
      | cons a rest => simp [newImpl, hr, ih]
    · simp [newImpl, hr, ih]

/-- When enough constructor arguments are supplied, every slot produced
by new() is present. -/
theorem newImpl_all_present {α : Type} : ∀ (fields : List (RField α)) (args : List α),
    reqCount fields ≤ args.length → ∀ o ∈ newImpl fields args, o.isSome := by
  intro fields
  induction fields with
  | nil => intro args h o ho; simp [newImpl] at ho
  | cons f fs ih =>
    intro args h o ho
    by_cases hr : f.req
    · have hcount : reqCount (f :: fs) = reqCount fs + 1 := by
        simp [reqCount, List.filter_cons, hr]
      cases args with
      | nil => rw [hcount] at h; simp only [List.length_nil] at h; omega
      | cons a rest =>
        rw [hcount] at h
        simp only [newImpl, hr, if_pos] at ho
        rcases List.mem_cons.mp ho with h1 | h1
        · simp [h1]
        · exact ih rest (by simpa using Nat.le_of_succ_le_succ h) o h1
    · have hcount : reqCount (f :: fs) = reqCount fs := by
        simp [reqCount, List.filter_cons, hr]
      simp only [newImpl, hr, if_neg, Bool.false_eq_true, not_false_iff] at ho
      rcases List.mem_cons.mp ho with h1 | h1
      · simp [h1]
      · exact ih args (by omega) o h1

/-- Slot of a defaulted field after new(): initialized from the recorded
default, whatever arguments are passed. -/
theorem newImpl_defaulted {α : Type} : ∀ (fields : List (RField α)) (args : List α) (i : Nat)
    (hi : i < fields.length), (fields.get ⟨i, hi⟩).req = false →
    (newImpl fields args)[i]? = some (some (fields.get ⟨i, hi⟩).dflt) := by
  intro fields
  induction fields with
  | nil => intro args i hi; simp at hi
  | cons f fs ih =>
    intro args i hi hreq
    cases i with
    | zero =>
      simp only [List.get] at hreq ⊢
      simp [newImpl, hreq]
    | succ i' =>
      have hi' : i' < fs.length := Nat.lt_of_succ_lt_succ hi
      have hreq' : (fs.get ⟨i', hi'⟩).req = false := hreq
      by_cases hr : f.req
      · cases args with
        | nil =>
          simp only [newImpl, hr, if_pos]
          rw [List.getElem?_cons_succ]
          exact ih [] i' hi' hreq'
        | cons a rest =>
          simp only [newImpl, hr, if_pos]
          rw [List.getElem?_cons_succ]
          exact ih rest i' hi' hreq'
      · simp only [newImpl, hr, if_neg, Bool.false_eq_true, not_false_iff]
        rw [List.getElem?_cons_succ]
        exact ih args i' hi' hreq'

/-- Slot of a mandatory field after new(): the constructor argument at
the position of that field among the mandatory fields, in declaration
order, stored wrapped as present. -/
theorem newImpl_mandatory {α : Type} : ∀ (fields : List (RField α)) (args : List α) (i : Nat)
    (hi : i < fields.length), (fields.get ⟨i, hi⟩).req = true →
    (newImpl fields args)[i]? = some args[reqCount (fields.take i)]? := by
  intro fields
  induction fields with
  | nil => intro args i hi; simp at hi
  | cons f fs ih =>
    intro args i hi hreq
    cases i with
    | zero =>
      simp only [List.get] at hreq
      cases args with
      | nil => simp [newImpl, hreq, reqCount]
      | cons a rest => simp [newImpl, hreq, reqCount]
    | succ i' =>
      have hi' : i' < fs.length := Nat.lt_of_succ_lt_succ hi
      have hreq' : (fs.get ⟨i', hi'⟩).req = true := hreq
      by_cases hr : f.req
      · have htake : reqCount ((f :: fs).take (i' + 1)) = reqCount (fs.take i') + 1 := by
          simp [reqCount, List.take_succ_cons, List.filter_cons, hr]
        cases args with
        | nil =>
          simp only [newImpl, hr, if_pos]
          rw [List.getElem?_cons_succ, htake, ih [] i' hi' hreq']
          simp
        | cons a rest =>
          simp only [newImpl, hr, if_pos]
          rw [List.getElem?_cons_succ, htake, ih rest i' hi' hreq']
          simp
      · have htake : reqCount ((f :: fs).take (i' + 1)) = reqCount (fs.take i') := by
          simp [reqCount, List.take_succ_cons, List.filter_cons, hr]
        simp only [newImpl, hr, if_neg, Bool.false_eq_true, not_false_iff]
        rw [List.getElem?_cons_succ, htake]
        exact ih args i' hi' hreq'

/-- Builder states of the split variant reachable by a new() call with
the exact constructor arity followed by any finite sequence of setter
calls; setters exist only for req: false fields, in both the
non-consuming and the consuming variant. -/
inductive ReachableImpl {α : Type} (fields : List (RField α)) : List (Option α) → Prop where
  | ctor (args : List α) (h : args.length = reqCount fields) :
      ReachableImpl fields (newImpl fields args)
  | setterNC (s : List (Option α)) (i : Nat) (v : α) (hs : ReachableImpl fields s)
      (hi : i < fields.length) (hreq : (fields.get ⟨i, hi⟩).req = false) :
      ReachableImpl fields (setSlotImplNC s i v)
  | setterC (s : List (Option α)) (i : Nat) (v : α) (hs : ReachableImpl fields s)
      (hi : i < fields.length) (hreq : (fields.get ⟨i, hi⟩).req = false) :
      ReachableImpl fields (setSlotImplC s i v)

/-- Every reachable builder state has one slot per field. -/
theorem reachable_length {α : Type} {fields : List (RField α)} {s : List (Option α)}
    (h : ReachableImpl fields s) : s.length = fields.length := by
  induction h with
  | ctor args h => exact newImpl_length fields args
  | setterNC s i v hs hi hreq ih => simpa [setSlotImplNC] using ih
  | setterC s i v hs hi hreq ih => simpa [setSlotImplC] using ih

/-- Every slot of a reachable builder state is present: new() fills every
slot (mandatory from its argument, defaulted from its default) and a
setter only ever stores a present value. -/
theorem reachable_all_present {α : Type} {fields : List (RField α)} {s : List (Option α)}
    (h : ReachableImpl fields s) : ∀ o ∈ s, o.isSome := by
  induction h with
  | ctor args h => exact newImpl_all_present fields args (by omega)
  | setterNC s i v hs hi hreq ih =>
    intro o ho
    rcases List.mem_or_eq_of_mem_set ho with h1 | h1
    · exact ih o h1
    · simp [h1]
  | setterC s i v hs hi hreq ih =>
    intro o ho
    rcases List.mem_or_eq_of_mem_set ho with h1 | h1
    · exact ih o h1
    · simp [h1]

/-- The constructor recursion of impl_builder.rs appends one parameter
per req: true field and one assignment per field, in field order. -/
theorem ctorGenAux_spec : ∀ (fs : List SField) (params : List String)
    (assigns : List (String × String)),
    ctorGenAux params assigns fs
      = (params ++ (fs.filter (·.req)).map (·.name),
         assigns ++ fs.map (fun f => (f.name, someWrap (if f.req then f.name else f.dflt)))) := by
  intro fs
  induction fs with
  | nil => intro params assigns; simp [ctorGenAux]
  | cons f fs ih =>
    intro params assigns
    by_cases hr : f.req
    · simp [ctorGenAux, hr, ih, List.filter_cons]
    · simp [ctorGenAux, hr, ih, List.filter_cons]

/-! ## Claim theorems -/

/-- The field list of the repository test
generates_struct_and_builder_with_mixed_defaults_maintains_order
(src/lib.rs lines 397 to 416), in the None/Some sentinel syntax parsed by
src/parse_struct.rs: field_a mandatory, field_b and field_c defaulted,
field_d mandatory. -/
def interleavedFields : List FieldEntry :=
  [⟨false, [], "field_a", "i32", none⟩,
   ⟨false, [], "field_b", "str", some "abc"⟩,
   ⟨false, [], "field_c", "i32", some "456"⟩,
   ⟨false, [], "field_d", "str", none⟩]

/-- Claim C1: the claim (and the repository test
generates_struct_and_builder_with_mixed_defaults_maintains_order) demand
that the emitted record field order equal the declaration order even when
mandatory and defaulted fields are interleaved; the code instead
classifies into separate mandatory and optional accumulators and
impl_struct_and_builder.rs emits all mandatory fields before all
defaulted ones, so the interleaved test specification is emitted in the
order field_a, field_d, field_b, field_c instead of the declared
field_a, field_b, field_c, field_d. -/
theorem c1_interleaved_emission_reorders :
    classifyFields (renderFields interleavedFields) = some (splitOf interleavedFields)
    ∧ emittedFieldNames (splitOf interleavedFields)
        = ["field_a", "field_d", "field_b", "field_c"]
    ∧ declaredFieldNames interleavedFields
        = ["field_a", "field_b", "field_c", "field_d"]
    ∧ emittedFieldNames (splitOf interleavedFields)
        ≠ declaredFieldNames interleavedFields := by
  refine ⟨classifyFields_render interleavedFields, by decide, by decide, by decide⟩

/-- Claim C2: in Data purpose (build of
src/declare_struct_and_builder.rs, lines 52 to 69), when every slot holds
a value and every assertion passes, build() returns Ok carrying the
assembled record; when some slot was never supplied (still None), it
returns an Err naming a field whose slot is absent (the first such field
in declaration order). -/
theorem c2_data_build (fields : List (DField Nat)) (slots : List (Option Nat))
    (asserts : List (Assertion Nat)) (hlen : slots.length = fields.length) :
    ((∀ o ∈ slots, o.isSome) → (∀ a ∈ asserts, a.ok slots.reduceOption = true) →
      buildDSB fields slots asserts = .ok ((fields.map (·.name)).zip slots.reduceOption))
    ∧ (none ∈ slots →
      ∃ (k : Nat) (f : DField Nat), fields[k]? = some f ∧ slots[k]? = some none
        ∧ buildDSB fields slots asserts = .err (missingFieldMsg f.name)) := by
  constructor
  · intro hpres hok
    unfold buildDSB
    rw [unwrapDSB_ok fields slots hlen hpres]
    have hnone : firstFailing asserts slots.reduceOption = none := by
      unfold firstFailing
      rw [List.find?_eq_none]
      intro a ha
      simp [hok a ha]
    simp [hnone]
  · intro hmem
    obtain ⟨k, f, h1, h2, h3⟩ := unwrapDSB_err fields slots hlen hmem
    refine ⟨k, f, h1, h2, ?_⟩
    unfold buildDSB
    rw [h3]

/-- Witness for C2 at a concrete input: a two-field builder with the
first slot supplied builds the record, and with the first slot absent
build names that field. -/
theorem c2_data_build_witness :
    buildDSB [⟨"x", none⟩, ⟨"y", some 2⟩] [some 1, some 2] ([] : List (Assertion Nat))
        = .ok [("x", 1), ("y", 2)]
    ∧ ∃ (k : Nat) (f : DField Nat), [⟨"x", none⟩, ⟨"y", (some 2 : Option Nat)⟩][k]? = some f
        ∧ [some (1 : Nat), some 2].length = 2
        ∧ buildDSB [⟨"x", none⟩, ⟨"y", some 2⟩] [none, some 2] ([] : List (Assertion Nat))
            = .err (missingFieldMsg f.name) := by
  constructor
  · have h := (c2_data_build [⟨"x", none⟩, ⟨"y", some 2⟩] [some 1, some 2] [] (by decide)).1
      (by decide) (by intro a ha; simp at ha)
    simpa using h
  · have h := (c2_data_build [⟨"x", none⟩, ⟨"y", some 2⟩] [none, some 2] [] (by decide)).2
      (by decide)
    obtain ⟨k, f, h1, h2, h3⟩ := h
    exact ⟨k, f, h1, by decide, h3⟩

/-- Claim C3: with all slots supplied, build() evaluates the assertions
against the unwrapped field values in declaration order and
short-circuits at the first violated one; in Data purpose the violation
(a false assert! or any other abrupt termination, both modelled by the
ok function returning false) is converted into an Err carrying the
literal text of that first violated predicate — in both the no-split
build (declare_struct_and_builder.rs lines 58 to 64) and the split data
build (impl_builder.rs lines 184 to 190) — and the data build never
propagates the abort (containment). -/
theorem c3_first_violated_assertion (fields : List (DField Nat))
    (rfields : List (RField Nat)) (slots : List (Option Nat))
    (asserts : List (Assertion Nat)) (hlen : slots.length = fields.length)
    (hpres : ∀ o ∈ slots, o.isSome) (j : Nat) (hj : j < asserts.length)
    (hfail : (asserts.get ⟨j, hj⟩).ok slots.reduceOption = false)
    (hbefore : ∀ k (hk : k < j),
      (asserts.get ⟨k, Nat.lt_trans hk hj⟩).ok slots.reduceOption = true) :
    buildDSB fields slots asserts = .err (assertFailMsg (asserts.get ⟨j, hj⟩).text)
    ∧ buildImplData rfields slots asserts
        = .err (assertFailMsg (asserts.get ⟨j, hj⟩).text)
    ∧ (∀ m, buildDSB fields slots asserts ≠ .panicked m)
    ∧ (∀ m, buildImplData rfields slots asserts ≠ .panicked m) := by
  have hfind : firstFailing asserts slots.reduceOption = some (asserts.get ⟨j, hj⟩) := by
    unfold firstFailing
    refine find?_at_first _ asserts j hj ?_ ?_
    · simpa using hfail
    · intro k hk
      simpa using hbefore k hk
  have h1 : buildDSB fields slots asserts = .err (assertFailMsg (asserts.get ⟨j, hj⟩).text) := by
    unfold buildDSB
    rw [unwrapDSB_ok fields slots hlen hpres]
    simp [hfind]
  have h2 : buildImplData rfields slots asserts
      = .err (assertFailMsg (asserts.get ⟨j, hj⟩).text) := by
    unfold buildImplData
    rw [unwrapImpl_ok slots hpres]
    simp [hfind]
  refine ⟨h1, h2, ?_, ?_⟩
  · intro m hc
    rw [h1] at hc
    exact BuildOutcome.noConfusion hc
  · intro m hc
    rw [h2] at hc
    exact BuildOutcome.noConfusion hc

/-- The assertion list of the bounded-value scenario of the spec:
value between 0 and 100. -/
def boundedAsserts : List (Assertion Nat) :=
  [⟨"assert!(value >= 0)", fun vs => decide (∀ v ∈ vs, v ≥ 0)⟩,
   ⟨"assert!(value <= 100)", fun vs => decide (∀ v ∈ vs, v ≤ 100)⟩]

/-- Witness for C3 at a concrete input: for value 150, the first
assertion passes and the second, the first violated one, is reported with
its literal text. -/
theorem c3_first_violated_assertion_witness :
    buildDSB [⟨"value", some 50⟩] [some 150] boundedAsserts
      = .err (assertFailMsg "assert!(value <= 100)") := by
  have hj : (1 : Nat) < boundedAsserts.length := by decide
  have hb : ∀ k (hk : k < 1),
      (boundedAsserts.get ⟨k, Nat.lt_trans hk hj⟩).ok
        ([some 150] : List (Option Nat)).reduceOption = true := by
    intro k hk
    have hk0 : k = 0 := by omega
    subst hk0
    rfl
  have h := (c3_first_violated_assertion [⟨"value", some 50⟩] [⟨"value", false, 50⟩]
    [some 150] boundedAsserts (by decide) (by decide) 1 hj (by rfl) hb).1
  simpa using h

/-- Claim C4: in Object purpose (impl_builder.rs lines 243 to 251 and 367
to 377) build() has no Result wrapper: it never produces a recoverable
error value; with every slot present and every assertion passing it
returns the record itself, while an absent slot or a violated assertion
is an unrecoverable abort. -/
theorem c4_object_build_aborts (fields : List (RField Nat)) (slots : List (Option Nat))
    (asserts : List (Assertion Nat)) :
    (∀ m, buildImplObject fields slots asserts ≠ .err m)
    ∧ ((∀ o ∈ slots, o.isSome) → (∀ a ∈ asserts, a.ok slots.reduceOption = true) →
        buildImplObject fields slots asserts
          = .ok ((fields.map (·.name)).zip slots.reduceOption))
    ∧ (none ∈ slots →
        buildImplObject fields slots asserts = .panicked optionUnwrapPanicMsg)
    ∧ ((∀ o ∈ slots, o.isSome) → (∃ a ∈ asserts, a.ok slots.reduceOption = false) →
        ∃ m, buildImplObject fields slots asserts = .panicked m) := by
  refine ⟨?_, ?_, ?_, ?_⟩
  · intro m
    unfold buildImplObject
    cases h1 : unwrapImpl slots with
    | error e => simp
    | ok vals => cases h2 : firstFailing asserts vals <;> simp [h2]
  · intro hpres hok
    unfold buildImplObject
    rw [unwrapImpl_ok slots hpres]
    have hnone : firstFailing asserts slots.reduceOption = none := by
      unfold firstFailing
      rw [List.find?_eq_none]
      intro a ha
      simp [hok a ha]
    simp [hnone]
  · intro hmem
    unfold buildImplObject
    rw [unwrapImpl_err slots hmem]
  · intro hpres hex
    unfold buildImplObject
    rw [unwrapImpl_ok slots hpres]
    obtain ⟨a, ha, hfa⟩ := hex
    cases h2 : firstFailing asserts slots.reduceOption with
    | some b => exact ⟨assertFailMsg b.text, by simp [h2]⟩
    | none =>
      exfalso
      have := List.find?_eq_none.mp h2 a ha
      simp [hfa] at this

/-- A concrete assertion that aborts unless the field equals 99. -/
def eq99Assert : Assertion Nat :=
  ⟨"assert!(f == 99)", fun vs => decide (∀ v ∈ vs, v = 99)⟩

/-- Witness for C4 at a concrete input: the three behaviours of a
one-field object builder. -/
theorem c4_object_build_aborts_witness :
    buildImplObject [⟨"f", false, (3 : Nat)⟩] [some 3] [] = .ok [("f", 3)]
    ∧ buildImplObject [⟨"f", false, (3 : Nat)⟩] [none] [] = .panicked optionUnwrapPanicMsg
    ∧ (∃ m, buildImplObject [⟨"f", false, (3 : Nat)⟩] [some 3] [eq99Assert]
        = .panicked m) := by
  refine ⟨?_, ?_, ?_⟩
  · have h := (c4_object_build_aborts [⟨"f", false, 3⟩] [some 3] []).2.1 (by decide)
      (by intro a ha; simp at ha)
    simpa using h
  · exact (c4_object_build_aborts [⟨"f", false, 3⟩] [none] []).2.2.1 (by decide)
  · exact (c4_object_build_aborts [⟨"f", false, 3⟩] [some 3] [eq99Assert]).2.2.2
      (by decide) ⟨eq99Assert, by simp, by decide⟩

/-- Claim C5: a field whose default expression is the None sentinel is
classified Mandatory (parse_struct.rs line 161) and becomes a required
constructor parameter of new(), in declaration order among the mandatory
fields, stored wrapped as present (impl_builder.rs line 82); a field with
default Some(e) is classified Defaulted (line 231), receives no
constructor parameter, and its slot is initialized in new() from the
recorded default (line 54). -/
theorem c5_sentinel_classification (fs : List FieldEntry) (sfs : List SField)
    (rfields : List (RField Nat)) (args : List Nat) (i : Nat) (hi : i < rfields.length) :
    (classifyFields (renderFields fs) = some (splitOf fs)
      ∧ (splitOf fs).mand = fs.filter (fun f => f.dflt.isNone)
      ∧ (splitOf fs).opt = fs.filter (fun f => !f.dflt.isNone))
    ∧ ((ctorGen sfs).1 = (sfs.filter (·.req)).map (·.name)
      ∧ (ctorGen sfs).2
          = sfs.map (fun f => (f.name, someWrap (if f.req then f.name else f.dflt))))
    ∧ ((rfields.get ⟨i, hi⟩).req = true →
        (newImpl rfields args)[i]? = some args[reqCount (rfields.take i)]?)
    ∧ ((rfields.get ⟨i, hi⟩).req = false →
        (newImpl rfields args)[i]? = some (some (rfields.get ⟨i, hi⟩).dflt)) := by
  refine ⟨⟨classifyFields_render fs, ?_, ?_⟩, ⟨?_, ?_⟩, ?_, ?_⟩
  · simp [splitOf, splitOf_spec]
  · simp [splitOf, splitOf_spec]
  · simp [ctorGen, ctorGenAux_spec]
  · simp [ctorGen, ctorGenAux_spec]
  · exact newImpl_mandatory rfields args i hi
  · exact newImpl_defaulted rfields args i hi

/-- A two-field split-variant builder: one mandatory, one defaulted. -/
def mixedRFields : List (RField Nat) := [⟨"a", true, 0⟩, ⟨"b", false, 5⟩]

/-- The same two fields as impl_builder.rs receives them. -/
def mixedSFields : List SField := [⟨"a", "i32", true, "0"⟩, ⟨"b", "i32", false, "5"⟩]

/-- Witness for C5 at a concrete input: the mandatory slot holds the
constructor argument wrapped as present, the defaulted slot holds the
default, and only the mandatory field is a constructor parameter. -/
theorem c5_sentinel_classification_witness :
    (newImpl mixedRFields [7])[0]? = some (some 7)
    ∧ (newImpl mixedRFields [7])[1]? = some (some 5)
    ∧ (ctorGen mixedSFields).1 = ["a"] := by
  have h0 := c5_sentinel_classification [] mixedSFields mixedRFields [7] 0 (by decide)
  have h1 := c5_sentinel_classification [] mixedSFields mixedRFields [7] 1 (by decide)
  refine ⟨?_, ?_, ?_⟩
  · have := h0.2.2.1 rfl
    simpa using this
  · have := h1.2.2.2 rfl
    simpa using this
  · have := h0.2.1.1
    simpa using this

/-- Claim C6: in the split variant exactly the Defaulted fields receive a
setter (impl_builder.rs lines 106 to 143: req: true expands to nothing)
while in the no-split variant every field receives one
(declare_struct_and_builder.rs lines 71 to 79 and 152 to 160); a
non-consuming setter takes and returns the builder by mutable reference,
a consuming setter takes and returns it by value, and both perform the
same slot update self.f = Some(value). -/
theorem c6_setter_generation (v : Variant) (f : SField) (g : DField Nat)
    (slots : List (Option Nat)) (i : Nat) (val : Nat) :
    ((setterImpl v f).isSome ↔ f.req = false)
    ∧ (f.req = false →
        setterImpl Variant.nonConsuming f = some ⟨f.name, Receiver.byMutRef⟩
        ∧ setterImpl Variant.consuming f = some ⟨f.name, Receiver.byValue⟩)
    ∧ setterDSB Variant.nonConsuming g = ⟨g.name, Receiver.byMutRef⟩
    ∧ setterDSB Variant.consuming g = ⟨g.name, Receiver.byValue⟩
    ∧ setSlotImplNC slots i val = slots.set i (some val)
    ∧ setSlotImplC slots i val = slots.set i (some val)
    ∧ setSlotDSB slots i val = slots.set i (some val) := by
  refine ⟨?_, ?_, rfl, rfl, rfl, rfl, rfl⟩
  · unfold setterImpl
    by_cases hr : f.req <;> simp [hr]
  · intro hr
    constructor <;> simp [setterImpl, hr]

/-- Witness for C6 at a concrete input: the defaulted field receives the
two setter shapes, discharging the req: false hypothesis. -/
theorem c6_setter_generation_witness :
    setterImpl Variant.nonConsuming ⟨"b", "i32", false, "5"⟩
        = some ⟨"b", Receiver.byMutRef⟩
    ∧ setterImpl Variant.consuming ⟨"b", "i32", false, "5"⟩
        = some ⟨"b", Receiver.byValue⟩ :=
  (c6_setter_generation Variant.nonConsuming ⟨"b", "i32", false, "5"⟩ ⟨"g", none⟩
    [] 0 0).2.1 rfl

/-- Claim C7: in every builder state reachable by new() (with the exact
constructor arity) followed by any finite sequence of setter calls, every
Defaulted slot is present, and the unwrap in build() cannot abort: a
build of the data purpose on a reachable state never panics. -/
theorem c7_defaulted_slots_present (fields : List (RField Nat)) (s : List (Option Nat))
    (h : ReachableImpl fields s) (i : Nat) (hi : i < fields.length)
    (hreq : (fields.get ⟨i, hi⟩).req = false) (asserts : List (Assertion Nat)) :
    (∃ v, s[i]? = some (some v))
    ∧ (∀ m, buildImplData fields s asserts ≠ .panicked m) := by
  have hlen := reachable_length h
  have hpres := reachable_all_present h
  constructor
  · have hi' : i < s.length := by rw [hlen]; exact hi
    have hmem : s.get ⟨i, hi'⟩ ∈ s := List.get_mem s i hi'
    have hsome := hpres _ hmem
    obtain ⟨v, hv⟩ := Option.isSome_iff_exists.mp hsome
    refine ⟨v, ?_⟩
    rw [List.getElem?_eq_getElem hi']
    exact congrArg some hv
  · intro m hc
    unfold buildImplData at hc
    rw [unwrapImpl_ok s hpres] at hc
    cases h2 : firstFailing asserts s.reduceOption <;> simp [h2] at hc

/-- Witness for C7 at a concrete input: the state reached by
new(5) followed by the setter for the defaulted field. -/
theorem c7_defaulted_slots_present_witness :
    (∃ v, (setSlotImplNC (newImpl mixedRFields [5]) 1 9)[1]? = some (some v))
    ∧ (∀ m, buildImplData mixedRFields (setSlotImplNC (newImpl mixedRFields [5]) 1 9) []
        ≠ .panicked m) :=
  c7_defaulted_slots_present mixedRFields _
    (ReachableImpl.setterNC _ 1 9 (ReachableImpl.ctor [5] (by decide)) (by decide) rfl)
    1 (by decide) rfl []

/-- Claim C8 counterexample: the claim asserts that at every
classification point the pub-prefixed pattern is attempted before the
plain one; at the field-classification point of parse_struct.rs the
plain rules (lines 161 and 231) precede the pub rules (lines 301 and
371), so the ordering premise fails there. -/
theorem c8_field_rules_plain_first :
    ¬ (fieldRuleOrder.indexOf FieldRuleTag.pubMandatory
          < fieldRuleOrder.indexOf FieldRuleTag.plainMandatory
        ∧ fieldRuleOrder.indexOf FieldRuleTag.pubOptional
          < fieldRuleOrder.indexOf FieldRuleTag.plainOptional) := by
  decide

/-- Claim C8 amended: at the header the pub rule is attempted before the
plain one and a pub-led header is classified as a public builder with the
following identifier as the builder name; at the field rules the plain
patterns are attempted first, but a pub-led field entry cannot match them
(the plain matchers fail on it), so a leading pub is still always
classified as a visibility marker with the following identifier as the
field name. -/
theorem c8_pub_always_visibility :
    headerRuleOrder.indexOf HeaderRuleTag.pubHeader
        < headerRuleOrder.indexOf HeaderRuleTag.plainHeader
    ∧ fieldRuleOrder.indexOf FieldRuleTag.plainMandatory
        < fieldRuleOrder.indexOf FieldRuleTag.pubMandatory
    ∧ (∀ (b : String) (m : HTok) (s : String) (body : List Tok),
        parseHeader [HTok.kwPub, HTok.ident b, m, HTok.ident s, HTok.braces body]
          = some ⟨true, b, m, s, body, []⟩)
    ∧ (∀ (n ty : String) (rest : List Tok) (wip : List String) (acc : Split),
        tryPlainMandatory (Tok.kwPub :: Tok.ident n :: Tok.colon :: Tok.tyTok ty :: Tok.eq ::
            Tok.noneTok :: Tok.comma :: rest) wip acc = none
        ∧ tryPlainOptional (Tok.kwPub :: Tok.ident n :: Tok.colon :: Tok.tyTok ty :: Tok.eq ::
            Tok.someOpen :: Tok.exprTok "e" :: Tok.closeParen :: Tok.comma :: rest) wip acc
          = none)
    ∧ (∀ (n ty : String) (d : Option String) (rest : List Tok) (wip : List String)
        (acc : Split),
        classifyStep (coreField ⟨true, [], n, ty, d⟩ ++ rest) wip acc
          = some (rest, [], pushEntry acc ⟨true, wip, n, ty, d⟩)) := by
  refine ⟨by decide, by decide, ?_, ?_, ?_⟩
  · intro b m s body
    rfl
  · intro n ty rest wip acc
    exact ⟨rfl, rfl⟩
  · intro n ty d rest wip acc
    exact classifyStep_core true n ty d rest wip acc

/-- The one-field specification x: i32 = None. -/
def lastField : FieldEntry := ⟨false, [], "x", "i32", none⟩

/-- Claim C9 counterexample: with the terminating comma the one-field
spec classifies; with the comma removed the whole classification is
rejected, so the two forms are not classified identically. -/
theorem c9_trailing_comma_differs :
    classifyFields (renderFields [lastField]) = some ⟨[lastField], []⟩
    ∧ classifyFields ((renderFields [lastField]).dropLast) = none
    ∧ classifyFields (renderFields [lastField])
        ≠ classifyFields ((renderFields [lastField]).dropLast) := by
  refine ⟨by decide, by decide, by decide⟩

/-- Claim C9 amended: every field entry, including the last, must be
terminated by a comma (each field rule of parse_struct.rs requires it):
the comma-terminated rendering classifies to the declared split, and
dropping the final comma makes the whole specification a syntax
rejection. -/
theorem c9_trailing_comma_required (fs : List FieldEntry) (h : fs ≠ []) :
    classifyFields (renderFields fs) = some (splitOf fs)
    ∧ classifyFields ((renderFields fs).dropLast) = none :=
  ⟨classifyFields_render fs, classifyFields_dropLast h⟩

/-- Witness for the amended C9 at a concrete input: a public documented
defaulted field. -/
theorem c9_trailing_comma_required_witness :
    classifyFields (renderFields [⟨true, ["doc"], "y", "u8", some "1"⟩])
        = some (splitOf [⟨true, ["doc"], "y", "u8", some "1"⟩])
    ∧ classifyFields ((renderFields [⟨true, ["doc"], "y", "u8", some "1"⟩]).dropLast)
        = none :=
  c9_trailing_comma_required [⟨true, ["doc"], "y", "u8", some "1"⟩] (by decide)

/-- Claim C10: a generated setter for one field changes only that field's
slot: at every other index the builder state is unchanged, in the
non-consuming split setter, the consuming split setter and the no-split
setter alike. -/
theorem c10_setter_frame (s : List (Option Nat)) (i j : Nat) (v : Nat) (h : j ≠ i) :
    (setSlotImplNC s i v)[j]? = s[j]?
    ∧ (setSlotImplC s i v)[j]? = s[j]?
    ∧ (setSlotDSB s i v)[j]? = s[j]? := by
  have hij : i ≠ j := fun hc => h hc.symm
  unfold setSlotImplNC setSlotImplC setSlotDSB
  exact ⟨List.getElem?_set_ne hij, List.getElem?_set_ne hij, List.getElem?_set_ne hij⟩

/-- Witness for C10 at a concrete input: setting slot 0 leaves slot 1
unchanged. -/
theorem c10_setter_frame_witness :
    (setSlotImplNC [some 1, none] 0 (5 : Nat))[1]? = [some 1, none][1]?
    ∧ (setSlotImplC [some 1, none] 0 (5 : Nat))[1]? = [some 1, none][1]?
    ∧ (setSlotDSB [some 1, none] 0 (5 : Nat))[1]? = [some 1, none][1]? :=
  c10_setter_frame [some 1, none] 0 1 5 (by decide)
